import Mathlib

/-!
Verification of the SD-JWT core specification and of helpers of the
`verifiable` package against the repository's code.

The repository snapshot contains two files:
* `pkg/doc/verifiable/common.go` — JSON decoding helpers (`safeStringValue`,
  `proofsToRaw`, `decodeProof`, `decodeContext`).  These are embedded directly.
* `pkg/doc/sdjwt/integration_test.go` — the integration test of the SD-JWT
  issuer/holder/verifier packages.  The packages themselves are not part of
  the snapshot, so the SD-JWT core is modelled from the specification, with
  the integration test used as the authority on observable behaviour
  (disclosure counts, verified-claim counts).

Modelling conventions:
* JSON values are the inductive `JsonV`.  Disclosure digests are modelled
  symbolically: the specification treats the cryptographic hash as an external
  byte-in/byte-out capability, so a digest is represented by the constructor
  `JsonV.dig salt name value` — a free (hence injective) hash of the
  disclosure's serialized form.
* JWT signatures are symbolic: a signed JWT carries the name of the signing
  key, and signature verification compares key names.
* The combined formats are modelled structurally (payload + disclosure list
  + optional binding JWT); the tilde-delimited string layer is modelled
  separately by `buildCFI`.
* The `_sd` shuffle required by the specification is modelled as the identity
  permutation (one admissible shuffle outcome); no claim below depends on the
  order of `_sd`.
* Time-claim validation (`nbf`/`exp` with leeway) needs a clock and is outside
  the modelled fragment; no claim below concerns it.
-/

/-- JSON value.  The extra constructor `dig` is the symbolic digest of a
disclosure `⟨salt, name, value⟩`; on the wire it would be the base64url
encoding of the hash of the serialized disclosure. -/
inductive JsonV where
  | null
  | bool (b : Bool)
  | num (n : Int)
  | str (s : String)
  | dig (salt nm : String) (value : JsonV)
  | arr (elems : List JsonV)
  | obj (fields : List (String × JsonV))
deriving Repr

mutual

/-- Boolean equality on `JsonV`. -/
def jbeq : JsonV → JsonV → Bool
  | .null, .null => true
  | .bool a, .bool b => a == b
  | .num a, .num b => a == b
  | .str a, .str b => a == b
  | .dig s1 n1 v1, .dig s2 n2 v2 => s1 == s2 && n1 == n2 && jbeq v1 v2
  | .arr xs, .arr ys => jbeqArr xs ys
  | .obj xs, .obj ys => jbeqObj xs ys
  | _, _ => false

/-- Boolean equality on lists of `JsonV`. -/
def jbeqArr : List JsonV → List JsonV → Bool
  | [], [] => true
  | x :: xs, y :: ys => jbeq x y && jbeqArr xs ys
  | _, _ => false

/-- Boolean equality on JSON object field lists. -/
def jbeqObj : List (String × JsonV) → List (String × JsonV) → Bool
  | [], [] => true
  | (n1, v1) :: xs, (n2, v2) :: ys => n1 == n2 && jbeq v1 v2 && jbeqObj xs ys
  | _, _ => false

end

mutual

/-- `jbeq` decides equality (component of the `DecidableEq` instance). -/
def jbeq_iff : ∀ a b : JsonV, jbeq a b = true ↔ a = b
  | .null, b => by cases b <;> simp [jbeq]
  | .bool a, b => by cases b <;> simp [jbeq]
  | .num a, b => by cases b <;> simp [jbeq]
  | .str a, b => by cases b <;> simp [jbeq]
  | .dig s1 n1 v1, b => by
      cases b <;> simp [jbeq]
      rename_i s2 n2 v2
      rw [jbeq_iff v1 v2]
      tauto
  | .arr xs, b => by
      cases b <;> simp [jbeq]
      exact jbeqArr_iff xs _
  | .obj xs, b => by
      cases b <;> simp [jbeq]
      exact jbeqObj_iff xs _

/-- `jbeqArr` decides equality (component of the `DecidableEq` instance). -/
def jbeqArr_iff : ∀ xs ys : List JsonV, jbeqArr xs ys = true ↔ xs = ys
  | [], ys => by cases ys <;> simp [jbeqArr]
  | x :: xs, ys => by
      cases ys with
      | nil => simp [jbeqArr]
      | cons y ys =>
        simp [jbeqArr, jbeq_iff x y, jbeqArr_iff xs ys]

/-- `jbeqObj` decides equality (component of the `DecidableEq` instance). -/
def jbeqObj_iff : ∀ xs ys : List (String × JsonV), jbeqObj xs ys = true ↔ xs = ys
  | [], ys => by cases ys <;> simp [jbeqObj]
  | (n, v) :: xs, ys => by
      cases ys with
      | nil => simp [jbeqObj]
      | cons y ys =>
        obtain ⟨n2, v2⟩ := y
        simp only [jbeqObj, Bool.and_eq_true, beq_iff_eq, jbeq_iff v v2, jbeqObj_iff xs ys,
          List.cons.injEq, Prod.mk.injEq]

end

instance : DecidableEq JsonV := fun a b => decidable_of_iff (jbeq a b = true) (jbeq_iff a b)

/-!
## Embedding of `pkg/doc/verifiable/common.go`

Go's `interface{}` holding a JSON-decoded value is modelled by `GoVal`
(`nil` interfaces and JSON `null` both decode to Go `nil`, modelled by
`GoVal.null`).  A Go panic from a failed type assertion is modelled by
`Option.none`; a Go `error` return is modelled by `Except.error`.
-/

/-- A Go `interface{}` value produced by `encoding/json` unmarshalling. -/
inductive GoVal where
  | null
  | bool (b : Bool)
  | num (n : Int)
  | str (s : String)
  | arr (elems : List GoVal)
  | obj (fields : List (String × GoVal))
deriving Repr

/-- Embeds `safeStringValue` (common.go:235-241): returns `""` for `nil`,
otherwise performs the unchecked type assertion `v.(string)`, which panics
(`none`) when `v` is neither `nil` nor a string. -/
def safeStringValue : GoVal → Option String
  | .null => some ""
  | .str s => some s
  | _ => none

/-- A `Proof` (common.go:104) is `map[string]interface{}`, modelled as a
field list. -/
def Proof : Type := List (String × GoVal)

/-- Raw JSON bytes (`json.RawMessage`): `none` models empty/nil bytes,
`some j` models bytes holding the JSON document `j`. -/
def RawJson : Type := Option GoVal

/-- Embeds `proofsToRaw` (common.go:243-252): zero proofs marshal to nil
bytes, a single proof marshals to its bare JSON object, two or more marshal
to a JSON array. -/
def proofsToRaw (proofs : List Proof) : RawJson :=
  match proofs with
  | [] => none
  | [p] => some (.obj p)
  | ps => some (.arr (ps.map GoVal.obj))

/-- `json.Unmarshal` of a document into a `Proof` (a Go map): succeeds
exactly on JSON objects and JSON `null` (which leaves the map `nil`). -/
def unmarshalProof : GoVal → Option Proof
  | .obj m => some m
  | .null => some []
  | _ => none

/-- `json.Unmarshal` of a document into `[]Proof`: succeeds on JSON `null`
(nil slice) and on arrays whose elements each unmarshal into a `Proof`. -/
def unmarshalProofList : GoVal → Option (List Proof)
  | .null => some []
  | .arr xs => goElems xs
  | _ => none
where
  goElems : List GoVal → Option (List Proof)
    | [] => some []
    | x :: rest => do
        let p ← unmarshalProof x
        let ps ← goElems rest
        some (p :: ps)

/-- Embeds `decodeProof` (common.go:254-274): empty bytes decode to `nil`;
otherwise first try a single proof, then a composed list of proofs, and fail
if both unmarshallings fail. -/
def decodeProof (proofBytes : RawJson) : Except String (List Proof) :=
  match proofBytes with
  | none => .ok []
  | some j =>
    match unmarshalProof j with
    | some p => .ok [p]
    | none =>
      match unmarshalProofList j with
      | some ps => .ok ps
      | none => .error "decode proof"

/-- Embeds `decodeContext`'s loop over an `[]interface{}` context
(common.go:217-229): leading strings are accumulated; at the first
non-string element the remaining slice `rContext[i:]` is returned as the
custom contexts. -/
def decodeContextLoop : List GoVal → List String × List GoVal
  | [] => ([], [])
  | x :: rest =>
    match x with
    | .str s =>
      let (strs, custom) := decodeContextLoop rest
      (s :: strs, custom)
    | _ => ([], x :: rest)

/-- Embeds `decodeContext` (common.go:212-233). -/
def decodeContext : GoVal → Except String (List String × List GoVal)
  | .str s => .ok ([s], [])
  | .arr xs => .ok (decodeContextLoop xs)
  | _ => .error "credential context of unknown type"

/-- Whether a `GoVal` is a JSON string (used to state C10). -/
def isStrG : GoVal → Bool
  | .str _ => true
  | _ => false

/-- The string held by a `GoVal`, when it is one (used to state C10). -/
def asStrG : GoVal → Option String
  | .str s => some s
  | _ => none

/-!
## SD-JWT core, modelled from the specification

The issuer/holder/verifier packages are absent from the snapshot; every
definition below is modelled from spec §3–§4.6, with the integration test
(`pkg/doc/sdjwt/integration_test.go`) fixing observable behaviour.
-/

/-- Modelled from the spec (§3, missing `pkg/doc/sdjwt/common`): one
revealable fact — a salt, a claim name and a JSON value (array-element
disclosures are out of scope in v1). -/
structure Disclosure where
  salt : String
  dname : String
  value : JsonV
deriving DecidableEq, Repr

/-- Modelled from the spec (§4.1, missing `pkg/doc/sdjwt/common`): the
digest of a disclosure — symbolically, the free hash of its serialized
form. -/
def digestV (d : Disclosure) : JsonV := .dig d.salt d.dname d.value

/-- Modelled from the spec (§4.4, missing `pkg/doc/sdjwt/issuer`): issuer
options.  The holder public key (a JWK) is modelled by its key name. -/
structure IssuerOpts where
  structured : Bool := false
  hashAlg : String := "sha-256"
  iat : Option Int := none
  nbf : Option Int := none
  expiry : Option Int := none
  jti : Option String := none
  subj : Option String := none
  aud : Option String := none
  holderKey : Option String := none
deriving Repr

/-- A payload member contributed by an `Option`-valued issuer option. -/
def optOf (n : String) (f : α → JsonV) : Option α → List (String × JsonV)
  | none => []
  | some x => [(n, f x)]

/-- The `cnf` payload member carrying the holder JWK (spec §4.4 step 2). -/
def cnfClaim : Option String → List (String × JsonV)
  | none => []
  | some k => [("cnf", .obj [("jwk", .str k)])]

/-- Modelled from the spec (§4.2 step 2, §4.4, missing
`pkg/doc/sdjwt/issuer`): the standard JWT claims placed in the signed
payload by the issuer id and the issuer options. -/
def optionClaims (issuerId : String) (o : IssuerOpts) : List (String × JsonV) :=
  [("iss", .str issuerId)]
    ++ optOf "sub" JsonV.str o.subj
    ++ optOf "aud" JsonV.str o.aud
    ++ optOf "jti" JsonV.str o.jti
    ++ optOf "iat" JsonV.num o.iat
    ++ optOf "nbf" JsonV.num o.nbf
    ++ optOf "exp" JsonV.num o.expiry
    ++ cnfClaim o.holderKey

/-- Modelled from the spec (§4.2 flat algorithm, missing
`pkg/doc/sdjwt/issuer`): one disclosure per top-level member, salts drawn
in order from the CSPRNG tape `saltF` starting at index `i`.  Per the
integration test (7 disclosures for the 7-member complex claims object),
every member of the input claims map is disclosed, standard JWT names
included. -/
def mkFlatDisclosures (saltF : Nat → String) (i : Nat) :
    List (String × JsonV) → List Disclosure
  | [] => []
  | (n, v) :: rest => ⟨saltF i, n, v⟩ :: mkFlatDisclosures saltF (i + 1) rest

/-- Whether a JSON value is an object (drives the structured recursion). -/
def isObjV : JsonV → Bool
  | .obj _ => true
  | _ => false

mutual

/-- Modelled from the spec (§4.2 structured algorithm, missing
`pkg/doc/sdjwt/issuer`): transform an object value — its members are
transformed by `transformFields` and its own `_sd` array is appended.
Returns the transformed value, all disclosures of the subtree, and the next
salt index.  (Only ever called on object values; any other value is
returned unchanged.) -/
def transformVal (saltF : Nat → String) : Nat → JsonV → JsonV × List Disclosure × Nat
  | i, .obj fs =>
    let r := transformFields saltF i fs
    (.obj (r.1 ++ [("_sd", .arr (r.2.1.map digestV))]), r.2.2.1, r.2.2.2)
  | i, v => (v, [], i)

/-- Modelled from the spec (§4.2 structured algorithm, missing
`pkg/doc/sdjwt/issuer`): walk an object's members; a member whose value is
an object is kept and recursively transformed; every other member becomes a
disclosure hashed into the enclosing object's `_sd`.  Returns the
transformed member list, this object's own disclosures, all disclosures of
the subtree, and the next salt index.  Per the integration test
(10 disclosures: 6 top-level + 4 nested), standard JWT names in the input
are disclosed like any other member. -/
def transformFields (saltF : Nat → String) :
    Nat → List (String × JsonV) →
    List (String × JsonV) × List Disclosure × List Disclosure × Nat
  | i, [] => ([], [], [], i)
  | i, (n, v) :: rest =>
    if isObjV v then
      let r1 := transformVal saltF i v
      let r2 := transformFields saltF r1.2.2 rest
      ((n, r1.1) :: r2.1, r2.2.1, r1.2.1 ++ r2.2.2.1, r2.2.2.2)
    else
      let d : Disclosure := ⟨saltF i, n, v⟩
      let r := transformFields saltF (i + 1) rest
      (r.1, d :: r.2.1, d :: r.2.2.1, r.2.2.2)

end

/-- Modelled from the spec (§4.4, missing `pkg/doc/sdjwt/issuer`): the
token returned by `issuer.New` — the signed payload, the (symbolic)
signing key, and the retained disclosure set. -/
structure SDJWT where
  payload : JsonV
  signerKey : String
  disclosures : List Disclosure
deriving Repr

/-- Modelled from the spec (§4.4 behaviour 1–4, missing
`pkg/doc/sdjwt/issuer`): `issuer.New`.  The `_sd` shuffle is modelled as
the identity permutation. -/
def issuerNew (issuerId : String) (claims : List (String × JsonV))
    (signerKey : String) (o : IssuerOpts) (saltF : Nat → String) : SDJWT :=
  if o.structured then
    let r := transformFields saltF 0 claims
    { payload := .obj (optionClaims issuerId o ++ r.1
        ++ [("_sd", .arr (r.2.1.map digestV)), ("_sd_alg", .str o.hashAlg)])
      signerKey := signerKey
      disclosures := r.2.2.1 }
  else
    let ds := mkFlatDisclosures saltF 0 claims
    { payload := .obj (optionClaims issuerId o
        ++ [("_sd", .arr (ds.map digestV)), ("_sd_alg", .str o.hashAlg)])
      signerKey := signerKey
      disclosures := ds }

/-- Modelled from the spec (§3, missing `pkg/doc/sdjwt/common`): the parsed
form of a Combined Format for Issuance — signed JWT plus disclosures. -/
structure CombinedIssuance where
  jwtPayload : JsonV
  jwtKey : String
  disclosures : List Disclosure
deriving Repr

/-- Modelled from the spec (§4.4, missing `pkg/doc/sdjwt/issuer`):
`Token.Serialize` — an issuer-side CFI never carries a holder binding. -/
def serializeToken (t : SDJWT) : CombinedIssuance :=
  ⟨t.payload, t.signerKey, t.disclosures⟩

/-- Modelled from the spec (§4.5, missing `pkg/doc/sdjwt/holder`): the
holder-binding JWT payload (`with_holder_binding` option). -/
structure BindingPayload where
  nonce : String
  audience : String
  issuedAt : Int
deriving DecidableEq, Repr

/-- Modelled from the spec (§4.5, missing `pkg/doc/sdjwt/holder`): binding
payload plus the holder's signer, modelled by its key name. -/
structure BindingInfo where
  payload : BindingPayload
  signerKey : String
deriving DecidableEq, Repr

/-- Modelled from the spec (§3, missing `pkg/doc/sdjwt/common`): the parsed
form of a Combined Format for Presentation. -/
structure CombinedPresentation where
  jwtPayload : JsonV
  jwtKey : String
  disclosures : List Disclosure
  binding : Option BindingInfo
deriving Repr

/-- Modelled from the spec (§7, missing `pkg/doc/sdjwt`): the error kinds
the modelled fragment can surface. -/
inductive SDErr where
  | signatureInvalid
  | orphanDisclosure
  | unknownDisclosure
  | claimCollision
  | holderBindingInvalid
deriving DecidableEq, Repr

mutual

/-- Modelled from the spec (§4.5 step 4, §4.6 step 5, missing
`pkg/doc/sdjwt/common`): collect every `_sd` digest of the signed payload
tree. -/
def collectSd : JsonV → List JsonV
  | .obj fs => collectSdF fs
  | _ => []

/-- `collectSd` over an object's members: an `_sd` member contributes its
array elements, any other member contributes the digests of its value. -/
def collectSdF : List (String × JsonV) → List JsonV
  | [] => []
  | (n, v) :: rest =>
    (if n = "_sd" then (match v with | .arr xs => xs | _ => []) else collectSd v)
      ++ collectSdF rest

end

/-- Modelled from the spec (§4.5, missing `pkg/doc/sdjwt/holder`): the
claim triple the holder offers its caller. -/
structure HolderClaim where
  cname : String
  value : JsonV
  disclosure : Disclosure
deriving DecidableEq, Repr

/-- Modelled from the spec (§4.5 step 4, missing `pkg/doc/sdjwt/holder`):
turn each received disclosure whose digest occurs in the payload into a
holder claim; a disclosure matching no digest is an `OrphanDisclosure`
error. -/
def holderClaims (digests : List JsonV) : List Disclosure → Except SDErr (List HolderClaim)
  | [] => .ok []
  | d :: rest =>
    if digests.contains (digestV d) then
      match holderClaims digests rest with
      | .ok cs => .ok (⟨d.dname, d.value, d⟩ :: cs)
      | .error e => .error e
    else
      .error .orphanDisclosure

/-- Modelled from the spec (§4.5 `parse`, missing `pkg/doc/sdjwt/holder`):
`holder.Parse` with an optional signature verifier. -/
def holderParse (cfi : CombinedIssuance) (verifyKey : Option String) :
    Except SDErr (List HolderClaim) :=
  match verifyKey with
  | some k =>
    if cfi.jwtKey = k then holderClaims (collectSd cfi.jwtPayload) cfi.disclosures
    else .error .signatureInvalid
  | none => holderClaims (collectSd cfi.jwtPayload) cfi.disclosures

/-- Modelled from the spec (§4.5 `create_presentation`, missing
`pkg/doc/sdjwt/holder`): every selected disclosure must appear in the CFI's
disclosure set; the optional binding payload is signed into a holder-binding
JWT. -/
def createPresentation (cfi : CombinedIssuance) (selected : List Disclosure)
    (binding : Option BindingInfo) : Except SDErr CombinedPresentation :=
  if selected.all (fun d => cfi.disclosures.contains d) then
    .ok ⟨cfi.jwtPayload, cfi.jwtKey, selected, binding⟩
  else
    .error .unknownDisclosure

/-- Modelled from the spec (§4.6, missing `pkg/doc/sdjwt/verifier`):
verifier options. -/
structure VerifierOpts where
  verifyKey : String
  holderBindingRequired : Bool := false
  expectedAud : String := ""
  expectedNonce : String := ""
deriving Repr

/-- The `cnf.jwk` holder key pinned in the issuer payload, when present. -/
def cnfKeyOf (payload : JsonV) : Option String :=
  match payload with
  | .obj fs =>
    match fs.lookup "cnf" with
    | some (.obj cf) =>
      match cf.lookup "jwk" with
      | some (.str k) => some k
      | _ => none
    | _ => none
  | _ => none

/-- Modelled from the spec (§4.6 step 4, missing `pkg/doc/sdjwt/verifier`):
when binding is required or present, the binding JWT must exist, be signed
by the `cnf.jwk` key, and match the expected audience and nonce. -/
def checkBinding (payload : JsonV) (binding : Option BindingInfo)
    (o : VerifierOpts) : Bool :=
  if o.holderBindingRequired || binding.isSome then
    match binding, cnfKeyOf payload with
    | some b, some k =>
      b.signerKey == k && b.payload.audience == o.expectedAud
        && b.payload.nonce == o.expectedNonce
    | _, _ => false
  else
    true

/-- The first received disclosure whose digest equals `dg` (spec §4.6
step 5: scan received disclosures for a match). -/
def findDisc (ds : List Disclosure) (dg : JsonV) : Option Disclosure :=
  ds.find? (fun d => digestV d == dg)

/-- The `_sd` array of an object's member list. -/
def sdEntriesOf (fs : List (String × JsonV)) : List JsonV :=
  match fs.lookup "_sd" with
  | some (.arr xs) => xs
  | _ => []

/-- Modelled from the spec (§4.6 step 5, missing `pkg/doc/sdjwt/verifier`):
insert the disclosed claim for every matched digest; an unmatched digest is
silently dropped; inserting over an existing member is a `ClaimCollision`. -/
def insertMatches (ds : List Disclosure) (fields : List (String × JsonV)) :
    List JsonV → Except SDErr (List (String × JsonV))
  | [] => .ok fields
  | dg :: rest =>
    match findDisc ds dg with
    | none => insertMatches ds fields rest
    | some d =>
      if (fields.map Prod.fst).contains d.dname then .error .claimCollision
      else insertMatches ds (fields ++ [(d.dname, d.value)]) rest

mutual

/-- Modelled from the spec (§4.6 step 5, missing `pkg/doc/sdjwt/verifier`):
reconstruct the disclosed claims of a payload value: walk nested objects,
drop `_sd`/`_sd_alg` members, and append the claims of matched digests. -/
def recVal (ds : List Disclosure) : JsonV → Except SDErr JsonV
  | .obj fs =>
    match recKept ds fs with
    | .error e => .error e
    | .ok kept =>
      match insertMatches ds kept (sdEntriesOf fs) with
      | .error e => .error e
      | .ok fields => .ok (.obj fields)
  | v => .ok v

/-- The retained members of an object under reconstruction: `_sd` and
`_sd_alg` are removed, other members keep their name and are reconstructed
recursively. -/
def recKept (ds : List Disclosure) : List (String × JsonV) →
    Except SDErr (List (String × JsonV))
  | [] => .ok []
  | (n, v) :: rest =>
    if n = "_sd" || n = "_sd_alg" then recKept ds rest
    else
      match recVal ds v with
      | .error e => .error e
      | .ok v' =>
        match recKept ds rest with
        | .error e => .error e
        | .ok rest' => .ok ((n, v') :: rest')

end

/-- Modelled from the spec (§4.6, missing `pkg/doc/sdjwt/verifier`):
`verifier.Parse` — verify the issuer signature, enforce holder binding,
reject received disclosures whose digest matches no `_sd` entry
(`OrphanDisclosure`), and reconstruct the disclosed claims. -/
def verifierParse (cfp : CombinedPresentation) (o : VerifierOpts) :
    Except SDErr JsonV :=
  if cfp.jwtKey = o.verifyKey then
    if checkBinding cfp.jwtPayload cfp.binding o then
      let allDg := collectSd cfp.jwtPayload
      if cfp.disclosures.all (fun d => allDg.contains (digestV d)) then
        recVal cfp.disclosures cfp.jwtPayload
      else
        .error .orphanDisclosure
    else
      .error .holderBindingInvalid
  else
    .error .signatureInvalid

/-- The member names of a JSON object value (an output observer used to
state the claims). -/
def memberNames : JsonV → List String
  | .obj fs => fs.map Prod.fst
  | _ => []

/-- The member list of a JSON object value. -/
def payloadFields : JsonV → List (String × JsonV)
  | .obj fs => fs
  | _ => []

/-- `getDisclosuresFromClaimNames` of the integration test
(integration_test.go:450-460): the disclosures of the holder claims whose
name is among the selected names. -/
def selectByNames (names : List String) (cs : List HolderClaim) : List Disclosure :=
  (cs.filter (fun c => names.contains c.cname)).map (fun c => c.disclosure)

/-- Modelled from the spec (§4.3 `build_cfi`, missing
`pkg/doc/sdjwt/common`): join the signed JWT and the disclosures with `~`
and append a trailing `~`. -/
def buildCFI (signedJWT : String) (disclosures : List String) : String :=
  String.intercalate "~" (signedJWT :: disclosures) ++ "~"

/-!
## Concrete scenario data (integration_test.go)
-/

/-- A deterministic CSPRNG tape for the concrete scenarios (spec §9: the
random source is an injected capability; tests use deterministic salts). -/
def saltFn : Nat → String := fun i => "salt" ++ toString i

/-- `testIssuer` of the integration test. -/
def testIssuer : String := "https://example.com/issuer"

/-- The simple claims of the flat and holder-binding scenarios
(integration_test.go:47-50). -/
def simpleClaims : List (String × JsonV) :=
  [("given_name", .str "Albert"), ("last_name", .str "Smith")]

/-- A fixed issuance instant standing for `time.Now()`. -/
def nowT : Int := 1700000000

/-- One year in seconds (`year` of the integration test). -/
def yearT : Int := 365 * 24 * 60 * 60

/-- Holder-parse / create-presentation / verifier-parse chain used by the
concrete scenarios, selecting disclosures by claim name. -/
def presentFlow (cfi : CombinedIssuance) (names : List String)
    (binding : Option BindingInfo) (vo : VerifierOpts) : Except SDErr JsonV :=
  match holderParse cfi (some vo.verifyKey) with
  | .error e => .error e
  | .ok hcs =>
    match createPresentation cfi (selectByNames names hcs) binding with
    | .error e => .error e
    | .ok cfp => verifierParse cfp vo

/-- The full-disclosure round trip of C1: issue, serialize, holder-parse,
present every disclosure of the CFI, verifier-parse. -/
def roundTripAll (issuerId : String) (claims : List (String × JsonV))
    (key : String) (o : IssuerOpts) (saltF : Nat → String) : Except SDErr JsonV :=
  let cfi := serializeToken (issuerNew issuerId claims key o saltF)
  match holderParse cfi (some key) with
  | .error e => .error e
  | .ok _ =>
    match createPresentation cfi cfi.disclosures none with
    | .error e => .error e
    | .ok cfp => verifierParse cfp { verifyKey := key }

/-- Issuer options of the flat scenario: `nbf = iat = now`,
`exp = now + 365d` (integration_test.go:54-58). -/
def c2Opts : IssuerOpts :=
  { iat := some nowT, nbf := some nowT, expiry := some (nowT + yearT) }

/-- The CFI of the flat scenario. -/
def c2CFI : CombinedIssuance :=
  serializeToken (issuerNew testIssuer simpleClaims "issuerKey" c2Opts saltFn)

/-- Verifier output of the flat scenario after presenting only
`given_name`. -/
def c2Verified : Except SDErr JsonV :=
  presentFlow c2CFI ["given_name"] none { verifyKey := "issuerKey" }

/-- Issuer options of the holder-binding scenario: the time options plus the
holder public key (integration_test.go:113-117). -/
def c3Opts : IssuerOpts :=
  { iat := some nowT, nbf := some nowT, expiry := some (nowT + yearT),
    holderKey := some "holderKey" }

/-- The CFI of the holder-binding scenario. -/
def c3CFI : CombinedIssuance :=
  serializeToken (issuerNew testIssuer simpleClaims "issuerKey" c3Opts saltFn)

/-- The holder-binding info of the scenario: nonce `"nonce"`, audience
`"https://test.com/verifier"`, signed by the holder key
(integration_test.go:141-149). -/
def c3Binding : BindingInfo :=
  { payload :=
      { nonce := "nonce", audience := "https://test.com/verifier", issuedAt := nowT },
    signerKey := "holderKey" }

/-- Verifier output of the holder-binding scenario: binding required, with
the expected audience and nonce (integration_test.go:155-159). -/
def c3Verified : Except SDErr JsonV :=
  presentFlow c3CFI ["given_name"] (some c3Binding)
    { verifyKey := "issuerKey", holderBindingRequired := true,
      expectedAud := "https://test.com/verifier", expectedNonce := "nonce" }

/-- `createComplexClaims` of the integration test
(integration_test.go:431-448). -/
def complexClaims : List (String × JsonV) :=
  [("sub", .str "john_doe_42"),
   ("given_name", .str "John"),
   ("family_name", .str "Doe"),
   ("email", .str "johndoe@example.com"),
   ("phone_number", .str "+1-202-555-0101"),
   ("birthdate", .str "1940-01-01"),
   ("address", .obj
     [("street_address", .str "123 Main St"),
      ("locality", .str "Anytown"),
      ("region", .str "Anystate"),
      ("country", .str "US")])]

/-- The token of the structured scenario (integration_test.go:172-173). -/
def c4Token : SDJWT :=
  issuerNew testIssuer complexClaims "issuerKey" { structured := true } saltFn

/-- The CFI of the structured scenario. -/
def c4CFI : CombinedIssuance := serializeToken c4Token

/-- Verifier output of the structured scenario after presenting
`given_name`, `email` and `street_address` (integration_test.go:196-206). -/
def c4Verified : Except SDErr JsonV :=
  presentFlow c4CFI ["given_name", "email", "street_address"] none
    { verifyKey := "issuerKey" }

/-- The token of the flat-over-complex scenario
(integration_test.go:219). -/
def c5Token : SDJWT :=
  issuerNew testIssuer complexClaims "issuerKey" {} saltFn

/-- The segments a `~`-join appends after its first segment (used to state
the join characterization of `buildCFI`). -/
def tailJoin (s : String) : List String → String
  | [] => ""
  | x :: xs => s ++ x ++ tailJoin s xs

/-!
## Helper lemmas
-/

theorem intercalate_go_eq (s : String) : ∀ (l : List String) (acc : String),
    String.intercalate.go acc s l = acc ++ tailJoin s l
  | [], acc => by simp [String.intercalate.go, tailJoin]
  | x :: xs, acc => by
    rw [String.intercalate.go, intercalate_go_eq s xs]
    simp [tailJoin, String.append_assoc]

theorem buildCFI_eq (jwt : String) (ds : List String) :
    buildCFI jwt ds = jwt ++ tailJoin "~" ds ++ "~" := by
  simp [buildCFI, String.intercalate, intercalate_go_eq]

theorem goElems_map_obj : ∀ ps : List Proof,
    unmarshalProofList.goElems (ps.map GoVal.obj) = some ps
  | [] => rfl
  | p :: rest => by
    simp [unmarshalProofList.goElems, unmarshalProof, goElems_map_obj rest]

theorem decodeContextLoop_eq : ∀ xs : List GoVal,
    decodeContextLoop xs = ((xs.takeWhile isStrG).filterMap asStrG, xs.dropWhile isStrG)
  | [] => rfl
  | x :: rest => by
    cases x <;>
      simp [decodeContextLoop, List.takeWhile, List.dropWhile, isStrG, asStrG,
        decodeContextLoop_eq rest]

/-!
## Claims
-/

/-- C7: `build_cfi` joins the signed JWT and the disclosures with the tilde
character and appends a trailing tilde, so the result always ends with a
tilde; with zero disclosures the result is exactly the signed JWT followed
by a single tilde. -/
theorem buildCFI_c7 (jwt d : String) (ds : List String) :
    (buildCFI jwt ds).data.getLast? = some '~'
      ∧ buildCFI jwt [] = jwt ++ "~"
      ∧ buildCFI jwt (d :: ds) = jwt ++ "~" ++ buildCFI d ds := by
  refine ⟨?_, ?_, ?_⟩
  · rw [buildCFI_eq, String.data_append]
    have h : ("~" : String).data = ['~'] := rfl
    rw [h, List.getLast?_concat]
  · rw [buildCFI_eq]
    simp [tailJoin]
  · rw [buildCFI_eq, buildCFI_eq]
    simp [tailJoin, String.append_assoc]

/-- C8: `safeStringValue` returns the empty string on `nil`, the string
itself on a string, and panics on every other (non-nil, non-string)
input — callers must establish that precondition. -/
theorem safeStringValue_c8 :
    safeStringValue .null = some ""
      ∧ (∀ s, safeStringValue (.str s) = some s)
      ∧ (∀ b, safeStringValue (.bool b) = none)
      ∧ (∀ n, safeStringValue (.num n) = none)
      ∧ (∀ xs, safeStringValue (.arr xs) = none)
      ∧ (∀ fs, safeStringValue (.obj fs) = none) :=
  ⟨rfl, fun _ => rfl, fun _ => rfl, fun _ => rfl, fun _ => rfl, fun _ => rfl⟩

/-- C9: decoding the raw form of any proof list returns exactly that list
without error — a single proof goes through a bare JSON object, two or more
through a JSON array, and the empty list through nil bytes. -/
theorem proofs_roundtrip_c9 : ∀ ps : List Proof,
    decodeProof (proofsToRaw ps) = .ok ps
  | [] => rfl
  | [_] => rfl
  | p1 :: p2 :: rest => by
    have h := goElems_map_obj (p1 :: p2 :: rest)
    simp only [List.map_cons] at h
    simp [proofsToRaw, decodeProof, unmarshalProof, unmarshalProofList, h]

/-- C10: `decodeContext` maps a string to a one-element context list with no
custom contexts; maps an array, without ever erring, to the longest leading
run of strings plus everything from the first non-string on as custom
contexts; and errs on every other input type. -/
theorem decodeContext_c10 :
    (∀ s, decodeContext (.str s) = .ok ([s], []))
      ∧ (∀ xs, decodeContext (.arr xs)
          = .ok ((xs.takeWhile isStrG).filterMap asStrG, xs.dropWhile isStrG))
      ∧ decodeContext .null = .error "credential context of unknown type"
      ∧ (∀ b, decodeContext (.bool b) = .error "credential context of unknown type")
      ∧ (∀ n, decodeContext (.num n) = .error "credential context of unknown type")
      ∧ (∀ fs, decodeContext (.obj fs) = .error "credential context of unknown type") := by
  refine ⟨fun _ => rfl, fun xs => ?_, rfl, fun _ => rfl, fun _ => rfl, fun _ => rfl⟩
  simp [decodeContext, decodeContextLoop_eq]

/-- C2: in the flat no-binding scenario (claims `given_name`/`last_name`,
`nbf = iat = now`, `exp = now + 365d`) the holder's parse of the CFI returns
exactly 2 claims, and after presenting only `given_name` the verifier's
parse returns an object with exactly 5 members: `iss, iat, nbf, exp,
given_name`. -/
theorem flat_flow_c2 :
    (holderParse c2CFI (some "issuerKey")).map List.length = .ok 2
      ∧ c2Verified.map memberNames = .ok ["iss", "iat", "nbf", "exp", "given_name"]
      ∧ c2Verified.map (fun v => (memberNames v).length) = .ok 5 :=
  ⟨rfl, rfl, rfl⟩

/-- C3: in the holder-binding scenario (same two claims plus `cnf`), a
presentation carrying a holder-binding JWT with audience
`https://test.com/verifier` and nonce `nonce` verifies successfully when the
verifier requires holder binding with that audience and nonce, and the
output has exactly 6 members: the 5 of the flat scenario plus `cnf`. -/
theorem binding_flow_c3 :
    (holderParse c3CFI (some "issuerKey")).map List.length = .ok 2
      ∧ c3Verified.map memberNames
          = .ok ["iss", "iat", "nbf", "exp", "cnf", "given_name"]
      ∧ c3Verified.map (fun v => (memberNames v).length) = .ok 6 :=
  ⟨rfl, rfl, rfl⟩

/-- C4 counterexample: presenting `{given_name, email, street_address}` in
the structured scenario does NOT make `street_address` a member of the
verifier's output — it is reconstructed inside the kept `address` object —
so the output's 4 members are not "`iss` plus the three presented
claims". -/
theorem structured_flow_c4_cex :
    c4Verified.map (fun v => (memberNames v).contains "street_address") = .ok false
      ∧ c4Verified.map (fun v => (memberNames v).contains "address") = .ok true :=
  ⟨rfl, rfl⟩

/-- C4 as amended: structured issuance of the complex claims object
produces exactly 10 disclosures — 6 digests in the top-level `_sd` and 4 in
the `address` object's `_sd` — and presenting
`{given_name, email, street_address}` yields a verifier output with exactly
4 members `iss, address, given_name, email`, where `address` holds only the
disclosed `street_address`. -/
theorem structured_flow_c4 :
    c4Token.disclosures.length = 10
      ∧ (holderParse c4CFI (some "issuerKey")).map List.length = .ok 10
      ∧ (sdEntriesOf (payloadFields c4Token.payload)).length = 6
      ∧ ((payloadFields c4Token.payload).lookup "address").map
          (fun a => (sdEntriesOf (payloadFields a)).length) = some 4
      ∧ c4Verified.map memberNames = .ok ["iss", "address", "given_name", "email"]
      ∧ c4Verified.map (fun v => (memberNames v).length) = .ok 4
      ∧ c4Verified.map (fun v => (payloadFields v).lookup "address")
          = .ok (some (.obj [("street_address", .str "123 Main St")])) :=
  ⟨rfl, rfl, rfl, rfl, rfl, rfl, rfl⟩

/-- C5 counterexample: flat issuance of the complex claims object (which
contains the standard JWT claim `sub`) converts `sub` into a disclosure like
any other member, and the signed payload has no plain `sub` member — the
standard-claim exemption the claim states does not exist. -/
theorem sub_disclosed_c5_cex :
    (c5Token.disclosures.map Disclosure.dname).contains "sub" = true
      ∧ (payloadFields c5Token.payload).lookup "sub" = none
      ∧ c5Token.disclosures.length = 7 :=
  ⟨rfl, rfl, rfl⟩

/-!
## Machinery for the universal claims
-/

theorem digestV_inj {a b : Disclosure} : digestV a = digestV b ↔ a = b := by
  cases a; cases b
  simp [digestV, Disclosure.mk.injEq, JsonV.dig.injEq]

theorem mkFlat_names (saltF : Nat → String) : ∀ (i : Nat) (claims : List (String × JsonV)),
    (mkFlatDisclosures saltF i claims).map Disclosure.dname = claims.map Prod.fst
  | _, [] => rfl
  | i, (n, v) :: rest => by
    simp [mkFlatDisclosures, mkFlat_names saltF (i + 1) rest]

theorem mkFlat_filter_pairs (saltF : Nat → String) (sel : String → Bool) :
    ∀ (i : Nat) (claims : List (String × JsonV)),
    ((mkFlatDisclosures saltF i claims).filter (fun d => sel d.dname)).map
        (fun d => (d.dname, d.value))
      = claims.filter (fun p => sel p.1)
  | _, [] => rfl
  | i, (n, v) :: rest => by
    by_cases h : sel n = true <;>
      simp [mkFlatDisclosures, List.filter_cons, h,
        mkFlat_filter_pairs saltF sel (i + 1) rest]

theorem collectSdF_append : ∀ xs ys : List (String × JsonV),
    collectSdF (xs ++ ys) = collectSdF xs ++ collectSdF ys
  | [], ys => rfl
  | (n, v) :: rest, ys => by
    simp [collectSdF, collectSdF_append rest ys]

theorem collectSdF_optionClaims (issuerId : String) (o : IssuerOpts) :
    collectSdF (optionClaims issuerId o) = [] := by
  rcases o with ⟨st, ha, iat, nbf, ex, jti, sub, aud, hk⟩
  cases iat <;> cases nbf <;> cases ex <;> cases jti <;> cases sub <;> cases aud <;> cases hk <;>
    simp [optionClaims, optOf, cnfClaim, collectSdF_append, collectSdF, collectSd]

theorem collectSd_flatPayload (issuerId : String) (o : IssuerOpts) (dgs : List JsonV) (h : String) :
    collectSd (.obj (optionClaims issuerId o ++ [("_sd", .arr dgs), ("_sd_alg", .str h)]))
      = dgs := by
  show collectSdF (optionClaims issuerId o ++ [("_sd", .arr dgs), ("_sd_alg", .str h)]) = dgs
  rw [collectSdF_append, collectSdF_optionClaims]
  simp [collectSdF, collectSd]

theorem optionClaims_no_sd (issuerId : String) (o : IssuerOpts) :
    "_sd" ∉ (optionClaims issuerId o).map Prod.fst
      ∧ "_sd_alg" ∉ (optionClaims issuerId o).map Prod.fst := by
  rcases o with ⟨st, ha, iat, nbf, ex, jti, sub, aud, hk⟩
  cases iat <;> cases nbf <;> cases ex <;> cases jti <;> cases sub <;> cases aud <;> cases hk <;>
    simp [optionClaims, optOf, cnfClaim]

theorem lookup_append_notMem (a : String) :
    ∀ (l1 l2 : List (String × JsonV)), a ∉ l1.map Prod.fst →
      List.lookup a (l1 ++ l2) = List.lookup a l2
  | [], l2, _ => rfl
  | (n, v) :: rest, l2, h => by
    have hn : a ≠ n := by
      intro e
      exact h (by simp [e])
    have ht : a ∉ rest.map Prod.fst := by
      intro e
      exact h (by simp [e])
    have hb : (a == n) = false := beq_eq_false_iff_ne.mpr hn
    simp [List.lookup, hb, lookup_append_notMem a rest l2 ht]

theorem sdEntriesOf_flat (issuerId : String) (o : IssuerOpts) (dgs : List JsonV) (h : String) :
    sdEntriesOf (optionClaims issuerId o ++ [("_sd", .arr dgs), ("_sd_alg", .str h)]) = dgs := by
  rw [sdEntriesOf, lookup_append_notMem _ _ _ (optionClaims_no_sd issuerId o).1]
  simp [List.lookup]

theorem recKept_append_ok {ds : List Disclosure} :
    ∀ {xs ys : List (String × JsonV)} {a b : List (String × JsonV)},
      recKept ds xs = .ok a → recKept ds ys = .ok b → recKept ds (xs ++ ys) = .ok (a ++ b)
  | [], ys, a, b, h1, h2 => by
    simp [recKept] at h1
    subst h1
    simpa using h2
  | (n, v) :: rest, ys, a, b, h1, h2 => by
    by_cases hn : (n = "_sd" ∨ n = "_sd_alg")
    · have he : (n = "_sd" || n = "_sd_alg") = true := by
        rcases hn with h | h <;> simp [h]
      rw [List.cons_append, recKept, if_pos he]
      rw [recKept, if_pos he] at h1
      exact recKept_append_ok h1 h2
    · have he : (n = "_sd" || n = "_sd_alg") = false := by
        push_neg at hn
        simp [hn.1, hn.2]
      rw [List.cons_append, recKept, if_neg (by simp [he])]
      rw [recKept, if_neg (by simp [he])] at h1
      cases hv : recVal ds v with
      | error e => rw [hv] at h1; simp at h1
      | ok v' =>
        rw [hv] at h1
        cases hr : recKept ds rest with
        | error e => rw [hr] at h1; simp at h1
        | ok rest' =>
          rw [hr] at h1
          simp at h1
          rw [recKept_append_ok hr h2]
          simp [← h1]

theorem recKept_optionClaims (ds : List Disclosure) (issuerId : String) (o : IssuerOpts) :
    recKept ds (optionClaims issuerId o) = .ok (optionClaims issuerId o) := by
  rcases o with ⟨st, ha, iat, nbf, ex, jti, sub, aud, hk⟩
  cases iat <;> cases nbf <;> cases ex <;> cases jti <;> cases sub <;> cases aud <;> cases hk <;>
    simp [optionClaims, optOf, cnfClaim, recKept, recVal, insertMatches, sdEntriesOf, List.lookup]

theorem findDisc_eq_none {l : List Disclosure} {d : Disclosure}
    (h : ∀ x ∈ l, x.dname ≠ d.dname) : findDisc l (digestV d) = none := by
  apply List.find?_eq_none.mpr
  intro x hx
  simp only [beq_iff_eq, digestV_inj]
  intro e
  exact h x hx (by rw [e])

theorem findDisc_filter (q : Disclosure → Bool) :
    ∀ (ds : List Disclosure), (ds.map Disclosure.dname).Nodup →
      ∀ d ∈ ds, findDisc (ds.filter q) (digestV d) = if q d then some d else none
  | [], _, d, hd => by simp at hd
  | x :: rest, hnd, d, hd => by
    have hnd' : (rest.map Disclosure.dname).Nodup := by
      simp [List.nodup_cons] at hnd
      exact hnd.2
    have hxrest : x.dname ∉ rest.map Disclosure.dname := by
      simp [List.nodup_cons] at hnd
      intro hmem
      rcases List.mem_map.mp hmem with ⟨y, hy, he⟩
      exact hnd.1 y hy he
    rcases List.mem_cons.mp hd with he | hmem
    · subst he
      by_cases hq : q d = true
      · rw [List.filter_cons_of_pos hq]
        simp [findDisc, List.find?, hq]
      · rw [List.filter_cons_of_neg (by simp [hq])]
        rw [findDisc_eq_none, if_neg (by simp [hq])]
        intro y hy
        intro he
        exact hxrest (he ▸ List.mem_map_of_mem Disclosure.dname (List.mem_of_mem_filter hy))
    · have hne : ¬ (digestV x == digestV d) = true := by
        simp only [beq_iff_eq, digestV_inj]
        intro e
        subst e
        exact hxrest (List.mem_map_of_mem Disclosure.dname hmem)
      by_cases hq : q x = true
      · rw [List.filter_cons_of_pos hq]
        rw [findDisc, List.find?]
        rw [Bool.of_not_eq_true hne]
        exact findDisc_filter q rest hnd' d hmem
      · rw [List.filter_cons_of_neg (by simp [hq])]
        exact findDisc_filter q rest hnd' d hmem

theorem insertMatches_gen (avail : List Disclosure) (q : Disclosure → Bool) :
    ∀ (ds : List Disclosure) (acc : List (String × JsonV)),
      (∀ d ∈ ds, findDisc avail (digestV d) = if q d then some d else none) →
      (∀ d ∈ ds, d.dname ∉ acc.map Prod.fst) →
      (ds.map Disclosure.dname).Nodup →
      insertMatches avail acc (ds.map digestV)
        = .ok (acc ++ (ds.filter q).map (fun d => (d.dname, d.value)))
  | [], acc, _, _, _ => by simp [insertMatches]
  | d0 :: rest, acc, hfind, hacc, hnd => by
    have hnd' : (rest.map Disclosure.dname).Nodup := by
      simp [List.nodup_cons] at hnd
      exact hnd.2
    have hd0rest : ∀ d ∈ rest, d.dname ≠ d0.dname := by
      simp [List.nodup_cons] at hnd
      intro d hd he
      exact hnd.1 d hd he
    rw [List.map_cons, insertMatches, hfind d0 (List.mem_cons_self d0 rest)]
    by_cases hq : q d0 = true
    · rw [if_pos hq]
      have hcont : ((acc.map Prod.fst).contains d0.dname) = false := by
        simpa using hacc d0 (List.mem_cons_self d0 rest)
      dsimp only
      rw [hcont]
      simp only [Bool.false_eq_true, if_false]
      rw [insertMatches_gen avail q rest (acc ++ [(d0.dname, d0.value)])
        (fun d hd => hfind d (List.mem_cons_of_mem d0 hd))
        (by
          intro d hd
          simp only [List.map_append, List.mem_append]
          push_neg
          refine ⟨hacc d (List.mem_cons_of_mem d0 hd), ?_⟩
          simp [hd0rest d hd])
        hnd']
      rw [List.filter_cons_of_pos hq]
      simp
    · rw [if_neg hq]
      dsimp only
      rw [insertMatches_gen avail q rest acc
        (fun d hd => hfind d (List.mem_cons_of_mem d0 hd))
        (fun d hd => hacc d (List.mem_cons_of_mem d0 hd))
        hnd']
      rw [List.filter_cons_of_neg (by simp [hq])]

theorem holderClaims_ok (digests : List JsonV) :
    ∀ ds : List Disclosure, (∀ d ∈ ds, digests.contains (digestV d) = true) →
      holderClaims digests ds = .ok (ds.map (fun d => ⟨d.dname, d.value, d⟩))
  | [], _ => rfl
  | d :: rest, h => by
    rw [holderClaims, if_pos (h d (List.mem_cons_self d rest))]
    rw [holderClaims_ok digests rest (fun x hx => h x (List.mem_cons_of_mem d hx))]
    simp

theorem flatVerify (issuerId key : String) (o : IssuerOpts) (saltF : Nat → String)
    (claims : List (String × JsonV)) (sel : String → Bool)
    (hflat : o.structured = false)
    (hnodup : (claims.map Prod.fst).Nodup)
    (hres : ∀ n ∈ claims.map Prod.fst,
      n ∉ (optionClaims issuerId o).map Prod.fst ∧ n ≠ "_sd" ∧ n ≠ "_sd_alg") :
    verifierParse
        ⟨(issuerNew issuerId claims key o saltF).payload, key,
          (issuerNew issuerId claims key o saltF).disclosures.filter (fun d => sel d.dname),
          none⟩
        { verifyKey := key }
      = .ok (.obj (optionClaims issuerId o ++ claims.filter (fun p => sel p.1))) := by
  have hds : (issuerNew issuerId claims key o saltF).disclosures
      = mkFlatDisclosures saltF 0 claims := by
    simp [issuerNew, hflat]
  have hpay : (issuerNew issuerId claims key o saltF).payload
      = .obj (optionClaims issuerId o
          ++ [("_sd", .arr ((mkFlatDisclosures saltF 0 claims).map digestV)),
              ("_sd_alg", .str o.hashAlg)]) := by
    simp [issuerNew, hflat]
  set ds := mkFlatDisclosures saltF 0 claims with hdsdef
  have hnames : ds.map Disclosure.dname = claims.map Prod.fst := mkFlat_names saltF 0 claims
  have hndds : (ds.map Disclosure.dname).Nodup := by rw [hnames]; exact hnodup
  rw [verifierParse]
  rw [if_pos rfl]
  rw [hpay, hds]
  have hbind : checkBinding
      (.obj (optionClaims issuerId o
        ++ [("_sd", .arr (ds.map digestV)), ("_sd_alg", .str o.hashAlg)]))
      none { verifyKey := key } = true := by
    simp [checkBinding]
  rw [if_pos hbind]
  rw [collectSd_flatPayload]
  have hall : (ds.filter (fun d => sel d.dname)).all
      (fun d => (ds.map digestV).contains (digestV d)) = true := by
    rw [List.all_eq_true]
    intro d hd
    have hmem : d ∈ ds := List.mem_of_mem_filter hd
    simpa using List.mem_map_of_mem digestV hmem
  rw [if_pos hall]
  rw [recVal]
  have hkept : recKept (ds.filter (fun d => sel d.dname))
      (optionClaims issuerId o
        ++ [("_sd", .arr (ds.map digestV)), ("_sd_alg", .str o.hashAlg)])
      = .ok (optionClaims issuerId o) := by
    have h2 : recKept (ds.filter (fun d => sel d.dname))
        [("_sd", JsonV.arr (ds.map digestV)), ("_sd_alg", JsonV.str o.hashAlg)]
        = .ok [] := by
      simp [recKept]
    have := @recKept_append_ok (ds.filter (fun d => sel d.dname)) _ _ _ _
      (recKept_optionClaims _ issuerId o) h2
    simpa using this
  rw [hkept]
  rw [sdEntriesOf_flat]
  dsimp only
  rw [insertMatches_gen (ds.filter (fun d => sel d.dname)) (fun d => sel d.dname) ds
    (optionClaims issuerId o)
    (findDisc_filter (fun d => sel d.dname) ds hndds)
    (by
      intro d hd
      have : d.dname ∈ claims.map Prod.fst := by
        rw [← hnames]
        exact List.mem_map_of_mem Disclosure.dname hd
      exact (hres d.dname this).1)
    hndds]
  rw [mkFlat_filter_pairs]

/-- C1: full-disclosure round trip — for every flat claims object with
distinct member names avoiding the reserved names, issuing an SD-JWT,
serializing it, parsing at the holder, presenting every disclosure and
parsing at the verifier yields exactly the original claims plus the
standard JWT claims set by the issuer id and options. -/
theorem roundtrip_c1 (issuerId key : String) (o : IssuerOpts) (saltF : Nat → String)
    (claims : List (String × JsonV))
    (hflat : o.structured = false)
    (hnodup : (claims.map Prod.fst).Nodup)
    (hres : ∀ n ∈ claims.map Prod.fst,
      n ∉ (optionClaims issuerId o).map Prod.fst ∧ n ≠ "_sd" ∧ n ≠ "_sd_alg") :
    roundTripAll issuerId claims key o saltF
      = .ok (.obj (optionClaims issuerId o ++ claims)) := by
  have hds : (issuerNew issuerId claims key o saltF).disclosures
      = mkFlatDisclosures saltF 0 claims := by
    simp [issuerNew, hflat]
  have hpay : (issuerNew issuerId claims key o saltF).payload
      = .obj (optionClaims issuerId o
          ++ [("_sd", .arr ((mkFlatDisclosures saltF 0 claims).map digestV)),
              ("_sd_alg", .str o.hashAlg)]) := by
    simp [issuerNew, hflat]
  have hkey : (issuerNew issuerId claims key o saltF).signerKey = key := by
    simp [issuerNew, hflat]
  set ds := mkFlatDisclosures saltF 0 claims with hdsdef
  set tok := issuerNew issuerId claims key o saltF with htok
  have hold : holderParse (serializeToken tok) (some key)
      = .ok (ds.map (fun d => ⟨d.dname, d.value, d⟩)) := by
    rw [holderParse]
    dsimp only [serializeToken]
    rw [hkey, if_pos rfl, hpay, hds, collectSd_flatPayload]
    apply holderClaims_ok
    intro d hd
    simpa using List.mem_map_of_mem digestV hd
  have hpres : createPresentation (serializeToken tok) (serializeToken tok).disclosures none
      = .ok ⟨tok.payload, tok.signerKey, tok.disclosures, none⟩ := by
    rw [createPresentation, if_pos]
    · rfl
    · rw [List.all_eq_true]
      intro d hd
      dsimp only [serializeToken] at hd ⊢
      simpa using hd
  have hv := flatVerify issuerId key o saltF claims (fun _ => true) hflat hnodup hres
  rw [← htok] at hv
  simp only [List.filter_true] at hv
  simp only [roundTripAll]
  rw [← htok, hold]
  dsimp only [serializeToken] at hpres ⊢
  rw [hpres]
  dsimp only
  rw [hkey]
  exact hv

theorem verifierOrphan :
    ∀ (cfp : CombinedPresentation) (vo : VerifierOpts),
      cfp.jwtKey = vo.verifyKey →
      checkBinding cfp.jwtPayload cfp.binding vo = true →
      (∃ d ∈ cfp.disclosures, digestV d ∉ collectSd cfp.jwtPayload) →
      verifierParse cfp vo = .error .orphanDisclosure := by
  intro cfp vo h1 h2 hex
  rcases hex with ⟨d, hd, hnc⟩
  rw [verifierParse, if_pos h1, if_pos h2]
  have hall : (cfp.disclosures.all
      (fun x => (collectSd cfp.jwtPayload).contains (digestV x))) = false := by
    by_contra h
    rw [Bool.not_eq_false] at h
    have := List.all_eq_true.mp h d hd
    simp at this
    exact hnc this
  rw [if_neg (by rw [hall]; exact Bool.false_ne_true)]

/-- C6: asymmetric error handling at the verifier: `_sd` digests with no
matching received disclosure are silently dropped — for any subset selection
the parse succeeds, returning only the selected claims — whereas a received
disclosure whose digest matches no `_sd` entry makes the parse fail with
`OrphanDisclosure`. -/
theorem verifier_asymmetry_c6 :
    (∀ (issuerId key : String) (o : IssuerOpts) (saltF : Nat → String)
        (claims : List (String × JsonV)) (sel : String → Bool),
      o.structured = false →
      (claims.map Prod.fst).Nodup →
      (∀ n ∈ claims.map Prod.fst,
        n ∉ (optionClaims issuerId o).map Prod.fst ∧ n ≠ "_sd" ∧ n ≠ "_sd_alg") →
      verifierParse
          ⟨(issuerNew issuerId claims key o saltF).payload, key,
            (issuerNew issuerId claims key o saltF).disclosures.filter
              (fun d => sel d.dname),
            none⟩
          { verifyKey := key }
        = .ok (.obj (optionClaims issuerId o ++ claims.filter (fun p => sel p.1))))
      ∧ (∀ (cfp : CombinedPresentation) (vo : VerifierOpts),
          cfp.jwtKey = vo.verifyKey →
          checkBinding cfp.jwtPayload cfp.binding vo = true →
          (∃ d ∈ cfp.disclosures, digestV d ∉ collectSd cfp.jwtPayload) →
          verifierParse cfp vo = .error .orphanDisclosure) :=
  ⟨fun issuerId key o saltF claims sel h1 h2 h3 =>
    flatVerify issuerId key o saltF claims sel h1 h2 h3,
   verifierOrphan⟩

/-- C5 as amended: there is no standard-claim exemption — flat issuance
converts every top-level member of the input claims (standard JWT names
like `sub` included) into a disclosure, and any input name that is not set
by the issuer options (and is not `_sd`/`_sd_alg`) is absent from the
signed payload; structured issuance likewise discloses the `sub` member of
the complex claims object. -/
theorem no_exemption_c5 :
    (∀ (issuerId : String) (claims : List (String × JsonV)) (key : String)
        (o : IssuerOpts) (saltF : Nat → String),
      o.structured = false →
      (issuerNew issuerId claims key o saltF).disclosures.map Disclosure.dname
          = claims.map Prod.fst
        ∧ ∀ n ∈ claims.map Prod.fst,
            n ∉ (optionClaims issuerId o).map Prod.fst → n ≠ "_sd" → n ≠ "_sd_alg" →
              n ∉ memberNames (issuerNew issuerId claims key o saltF).payload)
      ∧ (c4Token.disclosures.map Disclosure.dname).contains "sub" = true := by
  constructor
  · intro issuerId claims key o saltF hflat
    have hds : (issuerNew issuerId claims key o saltF).disclosures
        = mkFlatDisclosures saltF 0 claims := by
      simp [issuerNew, hflat]
    have hpay : (issuerNew issuerId claims key o saltF).payload
        = .obj (optionClaims issuerId o
            ++ [("_sd", .arr ((mkFlatDisclosures saltF 0 claims).map digestV)),
                ("_sd_alg", .str o.hashAlg)]) := by
      simp [issuerNew, hflat]
    constructor
    · rw [hds]
      exact mkFlat_names saltF 0 claims
    · intro n hn hopt hsd hsda
      rw [hpay]
      simp only [memberNames, List.map_append, List.mem_append]
      push_neg
      refine ⟨hopt, ?_⟩
      simp [hsd, hsda]
  · rfl

theorem roundtrip_c1_witness :
    (c2Opts.structured = false
        ∧ (simpleClaims.map Prod.fst).Nodup
        ∧ (∀ n ∈ simpleClaims.map Prod.fst,
            n ∉ (optionClaims testIssuer c2Opts).map Prod.fst ∧ n ≠ "_sd" ∧ n ≠ "_sd_alg"))
      ∧ roundTripAll testIssuer simpleClaims "issuerKey" c2Opts saltFn
          = .ok (.obj (optionClaims testIssuer c2Opts ++ simpleClaims)) :=
  ⟨⟨rfl, by decide, by decide⟩,
   roundtrip_c1 testIssuer "issuerKey" c2Opts saltFn simpleClaims rfl (by decide) (by decide)⟩

theorem verifier_asymmetry_c6_witness :
    (c2Opts.structured = false
        ∧ (simpleClaims.map Prod.fst).Nodup
        ∧ (∀ n ∈ simpleClaims.map Prod.fst,
            n ∉ (optionClaims testIssuer c2Opts).map Prod.fst ∧ n ≠ "_sd" ∧ n ≠ "_sd_alg"))
      ∧ verifierParse
          ⟨(issuerNew testIssuer simpleClaims "issuerKey" c2Opts saltFn).payload, "issuerKey",
            (issuerNew testIssuer simpleClaims "issuerKey" c2Opts saltFn).disclosures.filter
              (fun d => d.dname == "given_name"),
            none⟩
          { verifyKey := "issuerKey" }
          = .ok (.obj (optionClaims testIssuer c2Opts
              ++ simpleClaims.filter (fun p => p.1 == "given_name")))
      ∧ (∃ d ∈ [(⟨"zsalt", "zz", JsonV.str "z"⟩ : Disclosure)],
            digestV d ∉ collectSd
              (issuerNew testIssuer simpleClaims "issuerKey" c2Opts saltFn).payload)
      ∧ verifierParse
          ⟨(issuerNew testIssuer simpleClaims "issuerKey" c2Opts saltFn).payload, "issuerKey",
            [⟨"zsalt", "zz", JsonV.str "z"⟩], none⟩
          { verifyKey := "issuerKey" }
          = .error .orphanDisclosure :=
  ⟨⟨rfl, by decide, by decide⟩,
   verifier_asymmetry_c6.1 testIssuer "issuerKey" c2Opts saltFn simpleClaims
     (fun n => n == "given_name") rfl (by decide) (by decide),
   ⟨⟨"zsalt", "zz", JsonV.str "z"⟩, by decide, by decide⟩,
   verifier_asymmetry_c6.2
     ⟨(issuerNew testIssuer simpleClaims "issuerKey" c2Opts saltFn).payload, "issuerKey",
       [⟨"zsalt", "zz", JsonV.str "z"⟩], none⟩
     { verifyKey := "issuerKey" } rfl rfl
     ⟨⟨"zsalt", "zz", JsonV.str "z"⟩, by decide, by decide⟩⟩

theorem no_exemption_c5_witness :
    ({} : IssuerOpts).structured = false
      ∧ (issuerNew testIssuer complexClaims "issuerKey" {} saltFn).disclosures.map
          Disclosure.dname = complexClaims.map Prod.fst
      ∧ "sub" ∉ memberNames
          (issuerNew testIssuer complexClaims "issuerKey" {} saltFn).payload :=
  ⟨rfl,
   (no_exemption_c5.1 testIssuer complexClaims "issuerKey" {} saltFn rfl).1,
   (no_exemption_c5.1 testIssuer complexClaims "issuerKey" {} saltFn rfl).2 "sub"
     (by decide) (by decide) (by decide) (by decide)⟩
